import Mathlib

/-!
# Verification of the Prior Protocol bot's resilience-and-concurrency core

This development embeds, in Lean, the scheduler loop (`main.js`), the wallet
state registry (`walletLoader.js`), the transaction-sequence utilities
(`utils.js`), the fee-escalation retry (`swapEngine.js`) and the RPC endpoint
pool with its resilient call wrapper (`rpcManager.js`), and proves or refutes
the specified properties of those components.

Conventions of the embedding:
* JavaScript numbers that hold timestamps, delays and counters are modelled as
  `Int`/`Nat`; fee values (strings run through `parseFloat`/`toFixed`) are
  modelled as `Rat`.
* `Date.now()` and `Math.random()` are oracles passed explicitly: each call
  site receives the timestamp `now : Int` and the random draw `q : Rat`
  (with `0 ≤ q < 1`) it would observe.
* Remote calls are oracles returning `Except String α`; a thrown error is the
  `Except.error` carrying the error message.
-/

namespace PriorBot

/-! ## utils.js -/

/-- `getRandomInRange(min, max)` from `utils.js`:
`Math.floor(Math.random() * (max - min + 1)) + min`, with the `Math.random()`
draw `q ∈ [0,1)` passed explicitly. -/
def getRandomInRange (min max : Int) (q : Rat) : Int :=
  ⌊q * ((max : Rat) - (min : Rat) + 1)⌋ + min

theorem getRandomInRange_le_max {min max : Int} {q : Rat}
    (hq0 : 0 ≤ q) (hq1 : q < 1) (hmm : min ≤ max) :
    getRandomInRange min max q ≤ max := by
  unfold getRandomInRange
  have hn : (0 : Rat) < (max : Rat) - (min : Rat) + 1 := by
    have : (min : Rat) ≤ (max : Rat) := by exact_mod_cast hmm
    linarith
  have hlt : q * ((max : Rat) - (min : Rat) + 1) < (max : Rat) - (min : Rat) + 1 := by
    calc q * ((max : Rat) - (min : Rat) + 1)
        < 1 * ((max : Rat) - (min : Rat) + 1) := by
          exact mul_lt_mul_of_pos_right hq1 hn
      _ = (max : Rat) - (min : Rat) + 1 := one_mul _
  have hfl : ⌊q * ((max : Rat) - (min : Rat) + 1)⌋ < max - min + 1 := by
    have : q * ((max : Rat) - (min : Rat) + 1) < ((max - min + 1 : Int) : Rat) := by
      push_cast
      linarith
    exact Int.floor_lt.mpr this
  omega

theorem getRandomInRange_ge_min {min max : Int} {q : Rat}
    (hq0 : 0 ≤ q) (hq1 : q < 1) (hmm : min ≤ max) :
    min ≤ getRandomInRange min max q := by
  unfold getRandomInRange
  have hn : (0 : Rat) ≤ (max : Rat) - (min : Rat) + 1 := by
    have : (min : Rat) ≤ (max : Rat) := by exact_mod_cast hmm
    linarith
  have h0 : (0 : Rat) ≤ q * ((max : Rat) - (min : Rat) + 1) := mul_nonneg hq0 hn
  have : (0 : Int) ≤ ⌊q * ((max : Rat) - (min : Rat) + 1)⌋ := by
    exact Int.floor_nonneg.mpr h0
  omega

/-! ## Configuration (config.json fields consumed by the core) -/

/-- The configuration fields the embedded core reads.  `maxTransactions` is
`Option` because `config.json` does not define `wallets.maxTransactions`; in
JavaScript the comparison `x >= undefined` is false, which the `none` case
models. -/
structure Config where
  chainId : Int
  maxConcurrent : Nat
  runForever : Bool
  maxTransactions : Option Int
  betweenRoundsMin : Int
  betweenRoundsMax : Int
  betweenTransactionsMin : Int
  betweenTransactionsMax : Int
  minTransactionsPerWallet : Nat
  maxTransactionsPerWallet : Nat
  alwaysStartWithPriorToUsdc : Bool
  rpcMaxRetries : Nat
  deriving DecidableEq

/-- The shipped `config.json` values of the fields above. -/
def defaultConfig : Config :=
  { chainId := 84532
    maxConcurrent := 3
    runForever := true
    maxTransactions := none
    betweenRoundsMin := 3600000
    betweenRoundsMax := 7200000
    betweenTransactionsMin := 5000
    betweenTransactionsMax := 15000
    minTransactionsPerWallet := 5
    maxTransactionsPerWallet := 6
    alwaysStartWithPriorToUsdc := true
    rpcMaxRetries := 5 }

/-! ## walletLoader.js: the wallet state registry -/

inductive WalletStatus where
  | ready
  | running
  | completed
  | failed
  | retired
  deriving DecidableEq

/-- The `balances` sub-record of a wallet state (`null` initially). -/
structure WalletBalances where
  eth : Option Int
  prior : Option Int
  usdc : Option Int
  deriving DecidableEq

/-- The `approvals` sub-record of a wallet state. -/
structure WalletApprovals where
  prior : Bool
  usdc : Bool
  deriving DecidableEq

/-- One entry of `WalletLoader.walletStates`. -/
structure WalletState where
  isRunning : Bool
  lastRunTime : Int
  nextRunTime : Int
  transactionsCompleted : Int
  errors : Int
  lastError : Option String
  status : WalletStatus
  balances : WalletBalances
  approvals : WalletApprovals
  deriving DecidableEq

/-- The fresh state record built by `WalletLoader.initializeWalletState`
(`now` is the `Date.now()` observed by that call). -/
def initWalletState (now : Int) : WalletState :=
  { isRunning := false
    lastRunTime := 0
    nextRunTime := now
    transactionsCompleted := 0
    errors := 0
    lastError := none
    status := .ready
    balances := { eth := none, prior := none, usdc := none }
    approvals := { prior := false, usdc := false } }

/-- `WalletLoader.initializeWalletState(address)`: unconditionally stores a
fresh state record under `address` in the `walletStates` map. -/
def initializeWalletState (reg : String → Option WalletState) (address : String)
    (now : Int) : String → Option WalletState :=
  Function.update reg address (some (initWalletState now))

/-- `WalletLoader.markWalletAsRunning(address)` applied to the wallet's state:
unconditionally sets `isRunning`, `lastRunTime` and `status`. -/
def markWalletAsRunning (now : Int) (s : WalletState) : WalletState :=
  { s with isRunning := true, lastRunTime := now, status := .running }

/-- `Number.MAX_SAFE_INTEGER`. -/
def maxSafeInteger : Int := 9007199254740991

/-- The retirement test of `markWalletAsCompleted`:
`!wallets.runForever && updates.transactionsCompleted >= wallets.maxTransactions`
(`tc` is the updated completion count; a missing `maxTransactions` compares
false, as `x >= undefined` does). -/
def retireTriggered (cfg : Config) (tc : Int) : Bool :=
  !cfg.runForever &&
    (match cfg.maxTransactions with
     | some m => decide (tc ≥ m)
     | none => false)

/-- `WalletLoader.markWalletAsCompleted(address, success, errorMessage)`
applied to the wallet's state. `now` and `q` are the `Date.now()` and
`Math.random()` oracles observed by the call. On success the cooldown is
drawn from `delays.betweenRounds`; on failure from the hard-coded window
`[60000, 120000]`.  Afterwards, if `!wallets.runForever` and the updated
`transactionsCompleted` has reached `wallets.maxTransactions`, the wallet is
retired with `nextRunTime = Number.MAX_SAFE_INTEGER`. -/
def markWalletAsCompleted (cfg : Config) (now : Int) (q : Rat) (success : Bool)
    (errorMessage : Option String) (s : WalletState) : WalletState :=
  let nextRunDelay :=
    if success then getRandomInRange cfg.betweenRoundsMin cfg.betweenRoundsMax q
    else getRandomInRange 60000 120000 q
  let s1 : WalletState :=
    { s with
      isRunning := false
      transactionsCompleted :=
        if success then s.transactionsCompleted + 1 else s.transactionsCompleted
      nextRunTime := now + nextRunDelay
      status := if success then .completed else .failed }
  let s2 : WalletState :=
    if success then s1 else { s1 with errors := s.errors + 1, lastError := errorMessage }
  if retireTriggered cfg s2.transactionsCompleted then
    { s2 with status := .retired, nextRunTime := maxSafeInteger }
  else s2

/-- `WalletLoader.getRunningWalletsCount()` over a registry listed in wallet
order: the number of states with `isRunning`. -/
def getRunningWalletsCount (reg : List WalletState) : Nat :=
  reg.countP (fun s => s.isRunning)

/-- `WalletLoader.getAvailableWallets()` over an indexed registry: the indices
(in registration order) of wallets with `!isRunning && now ≥ nextRunTime`. -/
def getAvailableWallets (reg : List WalletState) (now : Int) : List Nat :=
  (List.range reg.length).filter (fun i =>
    match reg.get? i with
    | some s => !s.isRunning && decide (now ≥ s.nextRunTime)
    | none => false)

/-! ## main.js: the scheduler loop

One tick of `startMainLoop` (lines 140–212) reads the available wallets and
the running count, and — unless the ceiling is already reached — selects
`availableWallets.slice(0, maxConcurrent - running)` and marks each selected
wallet running, sleeping between launches.  While it sleeps, previously
launched tasks may complete concurrently (`markWalletAsCompleted`).  A tick is
therefore modelled as the batch selection followed by an arbitrary
interleaving of the batch's `markWalletAsRunning` calls with completions of
arbitrary wallets; every intermediate state of the tick is `applyTickEvents`
of a prefix of the event list. -/

/-- The batch of wallet indices one tick launches:
`availableWallets.slice(0, wallets.maxConcurrent - runningWallets)`, or
nothing at all when `runningWallets >= wallets.maxConcurrent`. -/
def tickBatch (cfg : Config) (reg : List WalletState) (now : Int) : List Nat :=
  if getRunningWalletsCount reg ≥ cfg.maxConcurrent then []
  else (getAvailableWallets reg now).take (cfg.maxConcurrent - getRunningWalletsCount reg)

/-- An event interleaved into a tick: the loop launching the next wallet of
its batch (`markWalletAsRunning` at the observed `Date.now()`), or a
concurrently running task finishing (`markWalletAsCompleted` with its own
oracles and outcome). -/
inductive TickEvent where
  | launch (now : Int)
  | finish (i : Nat) (now : Int) (q : Rat) (success : Bool) (err : Option String)

/-- Replace the state at index `i` (no-op when out of range, mirroring a map
update for an address that is present iff the index is). -/
def setWalletState (reg : List WalletState) (i : Nat)
    (f : WalletState → WalletState) : List WalletState :=
  match reg.get? i with
  | some s => reg.set i (f s)
  | none => reg

/-- Run the events of one tick: `launch` consumes the next batch index and
marks it running; `finish i` applies `markWalletAsCompleted` to wallet `i`. -/
def applyTickEvents (cfg : Config) : List TickEvent → List Nat → List WalletState →
    List WalletState
  | [], _, reg => reg
  | .launch now :: es, batch, reg =>
    match batch with
    | [] => applyTickEvents cfg es [] reg
    | i :: bs => applyTickEvents cfg es bs (setWalletState reg i (markWalletAsRunning now))
  | .finish i now q success err :: es, batch, reg =>
    applyTickEvents cfg es batch
      (setWalletState reg i (markWalletAsCompleted cfg now q success err))

theorem countP_set_le_succ {α : Type} (p : α → Bool) :
    ∀ (l : List α) (i : Nat) (x : α), (l.set i x).countP p ≤ l.countP p + 1 := by
  intro l
  induction l with
  | nil => intro i x; simp [List.countP]
  | cons a t ih =>
    intro i x
    cases i with
    | zero =>
      simp only [List.set, List.countP_cons]
      have hx : (if p x = true then 1 else 0) ≤ 1 := by split <;> omega
      have ha : (0 : Nat) ≤ (if p a = true then 1 else 0) := by omega
      omega
    | succ j =>
      simp only [List.set, List.countP_cons]
      have := ih j x
      omega

theorem countP_set_le_of_neg {α : Type} (p : α → Bool) :
    ∀ (l : List α) (i : Nat) (x : α), p x = false → (l.set i x).countP p ≤ l.countP p := by
  intro l
  induction l with
  | nil => intro i x _; simp [List.countP]
  | cons a t ih =>
    intro i x hx
    cases i with
    | zero =>
      cases hpa : p a <;> simp [hx, hpa, List.countP_cons]
    | succ j =>
      simp only [List.set, List.countP_cons]
      have := ih j x hx
      omega

theorem getRunningWalletsCount_setWalletState_le_succ (reg : List WalletState)
    (i : Nat) (f : WalletState → WalletState) :
    getRunningWalletsCount (setWalletState reg i f) ≤ getRunningWalletsCount reg + 1 := by
  unfold setWalletState
  cases reg.get? i with
  | none => simp [getRunningWalletsCount]
  | some s => exact countP_set_le_succ _ reg i (f s)

theorem markWalletAsCompleted_isRunning (cfg : Config) (now : Int) (q : Rat)
    (success : Bool) (err : Option String) (s : WalletState) :
    (markWalletAsCompleted cfg now q success err s).isRunning = false := by
  unfold markWalletAsCompleted
  cases success <;>
    simp [apply_ite (fun t : WalletState => t.isRunning)]

theorem getRunningWalletsCount_setWalletState_completed (cfg : Config)
    (reg : List WalletState) (i : Nat) (now : Int) (q : Rat) (success : Bool)
    (err : Option String) :
    getRunningWalletsCount
        (setWalletState reg i (markWalletAsCompleted cfg now q success err)) ≤
      getRunningWalletsCount reg := by
  unfold setWalletState
  cases h : reg.get? i with
  | none => simp [getRunningWalletsCount]
  | some s =>
    refine countP_set_le_of_neg _ reg i _ ?_
    simp [markWalletAsCompleted_isRunning]

theorem applyTickEvents_running_le (cfg : Config) :
    ∀ (events : List TickEvent) (batch : List Nat) (reg : List WalletState),
      getRunningWalletsCount (applyTickEvents cfg events batch reg) ≤
        getRunningWalletsCount reg + batch.length := by
  intro events
  induction events with
  | nil => intro batch reg; simp [applyTickEvents]
  | cons e es ih =>
    intro batch reg
    cases e with
    | launch now =>
      cases batch with
      | nil =>
        simpa [applyTickEvents] using ih [] reg
      | cons i bs =>
        have h1 := ih bs (setWalletState reg i (markWalletAsRunning now))
        have h2 := getRunningWalletsCount_setWalletState_le_succ reg i (markWalletAsRunning now)
        simp only [applyTickEvents, List.length_cons]
        omega
    | finish i now q success err =>
      have h1 := ih batch
        (setWalletState reg i (markWalletAsCompleted cfg now q success err))
      have h2 := getRunningWalletsCount_setWalletState_completed cfg reg i now q success err
      simp only [applyTickEvents]
      omega

/-! ## constants.js / utils.js: transaction types and sequence generation -/

/-- `TRANSACTION_TYPES` from `constants.js`. -/
inductive TransactionType where
  | FAUCET
  | APPROVE_PRIOR
  | APPROVE_USDC
  | SWAP_PRIOR_TO_USDC
  | SWAP_USDC_TO_PRIOR
  deriving DecidableEq

/-- The `while (sequence.length < count)` loop of
`generateTransactionSequence`: at each iteration the available types are the
two swap kinds minus the last element pushed, and the oracle `picks step`
selects `Math.floor(Math.random() * availableTypes.length)` (modelled as the
pick reduced modulo the list length). `remaining` is `count - sequence.length`
at loop entry. -/
def fillSequence (picks : Nat → Nat) : Nat → Nat → Option TransactionType →
    List TransactionType
  | _, 0, _ => []
  | step, remaining + 1, lastType =>
    let availableTypes :=
      [TransactionType.SWAP_PRIOR_TO_USDC, TransactionType.SWAP_USDC_TO_PRIOR].filter
        (fun t => some t ≠ lastType)
    let randomType := availableTypes.getD (picks step % availableTypes.length)
      TransactionType.SWAP_PRIOR_TO_USDC
    randomType :: fillSequence picks (step + 1) remaining (some randomType)

/-- `generateTransactionSequence(config, constants)` from `utils.js`, with the
drawn transaction count `count` and the per-iteration random picks passed as
oracles. -/
def generateTransactionSequence (cfg : Config) (count : Nat) (picks : Nat → Nat) :
    List TransactionType :=
  let start : List TransactionType :=
    if cfg.alwaysStartWithPriorToUsdc then [.SWAP_PRIOR_TO_USDC] else []
  start ++ fillSequence picks start.length (count - start.length)
    (match start with
     | [] => none
     | t :: _ => some t)

/-! ## swapEngine.js: fee escalation -/

/-- One entry of `config.gasSettings` (the fields `retryWithHigherGas` reads
and writes). The fee fields are the `parseFloat`ed numeric values of the
configured strings.  `retryMultiplier` is `Option` to model
`settings.retryMultiplier || 1.3` when the field is absent. -/
structure GasSettings where
  maxFeePerGas : Rat
  maxPriorityFeePerGas : Rat
  maxRetries : Nat
  retryMultiplier : Option Rat
  deriving DecidableEq

/-- The shipped `config.json` gas settings (identical for `faucet`, `approve`
and `swap`): fees `"0.0014"`/`"0.0009"` gwei, 3 retries, multiplier 1.3. -/
def defaultGasSettings : GasSettings :=
  { maxFeePerGas := 14 / 10000
    maxPriorityFeePerGas := 9 / 10000
    maxRetries := 3
    retryMultiplier := some (13 / 10) }

/-- `settings.retryMultiplier || 1.3` (JavaScript `||` falls back on the
falsy values `0` and `undefined`). -/
def retryGasMultiplier (s : GasSettings) : Rat :=
  match s.retryMultiplier with
  | some m => if m = 0 then 13 / 10 else m
  | none => 13 / 10

/-- `Number.prototype.toFixed(6)` on a nonnegative value, read back as a
number: round to six decimal places, half away from zero. -/
def toFixed6 (q : Rat) : Rat :=
  (⌊q * 1000000 + 1 / 2⌋ : Rat) / 1000000

/-- The temporary profile `retryWithHigherGas` installs for the retried
attempt: both fee components multiplied by the retry multiplier (and written
back through `toFixed(6)`), and the retry budget decremented. -/
def escalateGasSettings (s : GasSettings) : GasSettings :=
  { s with
    maxFeePerGas := toFixed6 (s.maxFeePerGas * retryGasMultiplier s)
    maxPriorityFeePerGas := toFixed6 (s.maxPriorityFeePerGas * retryGasMultiplier s)
    maxRetries := s.maxRetries - 1 }

/-- `SwapEngine.retryWithHigherGas(txFunction, txType)` acting on the stored
`gasSettings[txType]` profile.  The retried action `f` is a state transformer
on the profile returning its result (or thrown error) and the profile state
it leaves behind.  If the budget is zero (`!settings.maxRetries`) the call
throws before touching the profile.  Otherwise the escalated profile is
installed, `f` is invoked, and the `finally` block restores the two fee
fields to their saved originals and re-increments `maxRetries` — whether `f`
returned or threw. -/
def retryWithHigherGas {α : Type} (f : GasSettings → Except String α × GasSettings)
    (s : GasSettings) : Except String α × GasSettings :=
  if s.maxRetries = 0 then
    (.error "max retries reached, cannot retry transaction", s)
  else
    let fr := f (escalateGasSettings s)
    (fr.1,
      { fr.2 with
        maxFeePerGas := s.maxFeePerGas
        maxPriorityFeePerGas := s.maxPriorityFeePerGas
        maxRetries := fr.2.maxRetries + 1 })

/-! ## swapEngine.js: inter-transaction delays in `executeTransactionSequence`

Lines 420–428: before executing the step for `txType`, the loop sleeps a
random `delays.betweenTransactions` delay when `txSequence.indexOf(txType) > 0`
— the first index *of the step's value* in the sequence, not the loop
position. -/

/-- For each position of `txSequence` in order, whether the step executed
there is preceded by an inter-transaction delay:
`txSequence.indexOf(txType) > 0`. -/
def interTxDelayFlags (txSequence : List TransactionType) : List Bool :=
  txSequence.map (fun txType => decide (txSequence.indexOf txType > 0))

/-- Total number of inter-transaction delays `executeTransactionSequence`
performs for a given sequence. -/
def interTxDelayCount (txSequence : List TransactionType) : Nat :=
  (interTxDelayFlags txSequence).count true

/-! ## rpcManager.js: the endpoint pool and the resilient call wrapper -/

/-- One entry of `RpcManager.providers` (the `ethers` provider object itself
is an external handle and carries no pool state). -/
structure Provider where
  url : String
  failCount : Nat
  lastError : Option String
  lastUsed : Int
  isCurrentlyTesting : Bool
  deriving DecidableEq

/-- The pool state: the ordered provider list and the current pointer. -/
structure RpcState where
  providers : List Provider
  currentProviderIndex : Nat
  deriving DecidableEq

/-- `needle` is a prefix of `hay` (character lists). -/
def charsHavePrefix : List Char → List Char → Bool
  | [], _ => true
  | _ :: _, [] => false
  | a :: as, b :: bs => a == b && charsHavePrefix as bs

/-- `needle` occurs as a contiguous run in `hay`. -/
def charsContain (needle : List Char) : List Char → Bool
  | [] => needle.isEmpty
  | b :: bs => charsHavePrefix needle (b :: bs) || charsContain needle bs

/-- JavaScript `haystack.includes(pattern)` for strings. -/
def stringIncludes (haystack pattern : String) : Bool :=
  charsContain pattern.data haystack.data

/-- The transport-class test of `withProvider` (lines 716–721): the error
message contains one of the four failover patterns. -/
def isTransportError (message : String) : Bool :=
  stringIncludes message "timeout" ||
  stringIncludes message "server error" ||
  stringIncludes message "network error" ||
  stringIncludes message "connection refused"

/-- The `while (attempts < this.providers.length)` scan of
`switchToNextProvider`: advance the pointer circularly, stopping at the first
provider with `failCount === 0`; with no such provider the scan performs
`providers.length` advances and lands back on the starting index. -/
def switchScan (ps : List Provider) : Nat → Nat → Nat
  | 0, idx => idx
  | attempts + 1, idx =>
    let idx2 := (idx + 1) % ps.length
    match ps.get? idx2 with
    | some p => if p.failCount = 0 then idx2 else switchScan ps attempts idx2
    | none => idx2

/-- `RpcManager.switchToNextProvider()` (its effect on the pool state). -/
def switchToNextProvider (st : RpcState) : RpcState :=
  { st with currentProviderIndex :=
      switchScan st.providers st.providers.length st.currentProviderIndex }

/-- `RpcManager.markCurrentProviderAsFailed(errorMessage)`: increment the
current provider's `failCount` and record the error; if every provider now
has `failCount > 0`, decrement every counter by one (`Math.max(0, c - 1)`);
then advance the pointer via `switchToNextProvider`. -/
def markCurrentProviderAsFailed (errorMessage : String) (st : RpcState) : RpcState :=
  let ps1 :=
    match st.providers.get? st.currentProviderIndex with
    | some p => st.providers.set st.currentProviderIndex
        { p with failCount := p.failCount + 1, lastError := some errorMessage }
    | none => st.providers
  let ps2 :=
    if ps1.all (fun p => p.failCount > 0) then
      ps1.map (fun p => { p with failCount := p.failCount - 1 })
    else ps1
  switchToNextProvider { providers := ps2, currentProviderIndex := st.currentProviderIndex }

/-- `RpcManager.testProvider(index)` on one provider.  The probe oracles give
the outcome of `provider.getNetwork()` (the reported chain id, or a thrown
error) and of `provider.getBlockNumber()`.  A probe passes only if the chain
id matches `config.network.chainId` and the block fetch succeeds; passing
resets `failCount` to 0, any failure increments it. -/
def testProvider (cfg : Config) (netResult : Except String Int)
    (blockResult : Except String Nat) (p : Provider) : Provider :=
  if p.isCurrentlyTesting then p
  else
    match netResult with
    | .error m => { p with failCount := p.failCount + 1, lastError := some m }
    | .ok chainId =>
      if chainId ≠ cfg.chainId then
        { p with failCount := p.failCount + 1, lastError := some "network id mismatch" }
      else
        match blockResult with
        | .error m => { p with failCount := p.failCount + 1, lastError := some m }
        | .ok _ => { p with failCount := 0, lastError := none }

/-- Whether the probe oracles for one endpoint amount to a passing health
check. -/
def probePasses (cfg : Config) (netResult : Except String Int)
    (blockResult : Except String Nat) : Bool :=
  match netResult with
  | .ok chainId =>
    decide (chainId = cfg.chainId) &&
      (match blockResult with
       | .ok _ => true
       | .error _ => false)
  | .error _ => false

/-- `RpcManager.testAllProviders()`: probe every provider in order; if none
ends with `failCount === 0`, throw; otherwise point at the first provider
with `failCount === 0`. -/
def testAllProviders (cfg : Config) (probeNet : Nat → Except String Int)
    (probeBlock : Nat → Except String Nat) (st : RpcState) : Except String RpcState :=
  let ps := (st.providers.zip (List.range st.providers.length)).map
    (fun pi => testProvider cfg (probeNet pi.2) (probeBlock pi.2) pi.1)
  if ps.any (fun p => p.failCount = 0) then
    .ok { providers := ps, currentProviderIndex := ps.findIdx (fun p => p.failCount = 0) }
  else
    .error "all RPC providers unavailable"

/-- `RpcManager.initializeProviders()` (invoked by the constructor): refuse an
empty URL list, build zero-failure provider entries for every URL, and run
`testAllProviders`.  The `await`-less call to the `async` `testAllProviders`
is modelled sequentially: its thrown error aborts startup. -/
def initializeProviders (cfg : Config) (urls : List String)
    (probeNet : Nat → Except String Int) (probeBlock : Nat → Except String Nat) :
    Except String RpcState :=
  if urls.isEmpty then .error "no RPC URL configured"
  else
    testAllProviders cfg probeNet probeBlock
      { providers := urls.map (fun url =>
          { url := url, failCount := 0, lastError := none, lastUsed := 0,
            isCurrentlyTesting := false })
        currentProviderIndex := 0 }

/-- Observable trace of one `withProvider` call: its result, the pool state
it leaves, how many times it invoked the action, how many `retryDelay` sleeps
it performed, and how many times it called `markCurrentProviderAsFailed`. -/
structure CallTrace (α : Type) where
  result : Except String α
  finalState : RpcState
  invocations : Nat
  sleeps : Nat
  failovers : Nat

/-- The `while (retries <= maxRetries)` loop of `RpcManager.withProvider`.
`remaining` counts the loop iterations still permitted
(`maxRetries + 1 - retries`); the action oracle gives the outcome of attempt
number `inv` (a timeout of the race surfaces as an error like any other).  On
an error the provider is failed over only when the message matches a
transport pattern, and the `retryDelay` sleep happens only when another
iteration follows. -/
def withProviderScan {α : Type} (action : Nat → Except String α) :
    Nat → Nat → Nat → Nat → Option String → RpcState → CallTrace α
  | 0, inv, sleeps, failovers, lastError, st =>
    ⟨.error (lastError.getD "RPC operation failed, max retries reached"),
      st, inv, sleeps, failovers⟩
  | remaining + 1, inv, sleeps, failovers, _, st =>
    match action inv with
    | .ok v => ⟨.ok v, st, inv + 1, sleeps, failovers⟩
    | .error e =>
      let st2 := if isTransportError e then markCurrentProviderAsFailed e st else st
      let failovers2 := if isTransportError e then failovers + 1 else failovers
      let sleeps2 := if remaining > 0 then sleeps + 1 else sleeps
      withProviderScan action remaining (inv + 1) sleeps2 failovers2 (some e) st2

/-- `RpcManager.withProvider(action, options)` with `options.maxRetries`
resolved; the timeout and the retry delay leave no trace beyond the counted
sleeps. -/
def withProvider {α : Type} (action : Nat → Except String α) (maxRetries : Nat)
    (st : RpcState) : CallTrace α :=
  withProviderScan action (maxRetries + 1) 0 0 0 none st

/-! ## Claim theorems -/

/-- A pool entry with a given url and failure count (no recorded error). -/
def mkProvider (url : String) (fail : Nat) : Provider :=
  { url := url, failCount := fail, lastError := none, lastUsed := 0,
    isCurrentlyTesting := false }

/-- A three-endpoint pool in which every endpoint has one recorded failure,
with the current pointer at `i` (Scenario B of the spec). -/
def poolAllOnes (i : Nat) : RpcState :=
  { providers := [mkProvider "a" 1, mkProvider "b" 1, mkProvider "c" 1]
    currentProviderIndex := i }

/-- C5 counterexample: with three endpoints at failures 1,1,1, one further
`markCurrentProviderAsFailed` leaves failure counters 1,0,0 — the just-failed
endpoint keeps a positive counter — not 0,0,0 as the claim states. -/
theorem c5_counterexample :
    ((markCurrentProviderAsFailed "network error" (poolAllOnes 0)).providers.map
        (fun p => p.failCount)) = [1, 0, 0] ∧
    ¬ ((markCurrentProviderAsFailed "network error" (poolAllOnes 0)).providers.map
        (fun p => p.failCount)) = [0, 0, 0] ∧
    (markCurrentProviderAsFailed "network error" (poolAllOnes 0)).currentProviderIndex = 1 := by
  decide

/-- C5 (amended): with three endpoints at failures 1,1,1 and the current
pointer at `i`, one further failure first raises endpoint `i` to 2; the
full-pool soft reset then decrements every counter by one, yielding 0 for the
two other endpoints and 1 for endpoint `i`; the pointer then advances to the
next (zero-failure) endpoint `(i+1) % 3`. -/
theorem c5_soft_reset_keeps_current_at_one (i : Nat) (hi : i < 3) :
    ((markCurrentProviderAsFailed "network error" (poolAllOnes i)).providers.map
        (fun p => p.failCount)) = (List.replicate 3 0).set i 1 ∧
    (markCurrentProviderAsFailed "network error" (poolAllOnes i)).currentProviderIndex
      = (i + 1) % 3 := by
  have h : i = 0 ∨ i = 1 ∨ i = 2 := by omega
  rcases h with h | h | h <;> subst h <;> exact ⟨by decide, by decide⟩

/-- C5 witness: the amended statement at the concrete pointer 0. -/
theorem c5_soft_reset_witness :
    ((markCurrentProviderAsFailed "network error" (poolAllOnes 0)).providers.map
        (fun p => p.failCount)) = (List.replicate 3 0).set 0 1 ∧
    (markCurrentProviderAsFailed "network error" (poolAllOnes 0)).currentProviderIndex
      = (0 + 1) % 3 :=
  c5_soft_reset_keeps_current_at_one 0 (by decide)

/-- A wallet state that is currently running (registered at time 0, marked
running with `lastRunTime = 0`). -/
def runningWallet : WalletState :=
  { initWalletState 0 with isRunning := true, status := .running }

/-- C6 counterexample: `markWalletAsRunning` applied to an already-running
wallet does not fail — the code has no `InvalidTransition` path at all — and
it silently overwrites the state (`lastRunTime` changes from 0 to 5). -/
theorem c6_counterexample :
    runningWallet.isRunning = true ∧
    (markWalletAsRunning 5 runningWallet).isRunning = true ∧
    (markWalletAsRunning 5 runningWallet).lastRunTime = 5 ∧
    runningWallet.lastRunTime = 0 ∧
    markWalletAsRunning 5 runningWallet ≠ runningWallet := by
  decide

/-- C6 (amended): `markWalletAsRunning` never fails: applied to a wallet that
is already running it succeeds, keeping `isRunning = true` and
`status = running` and silently overwriting `lastRunTime` with the observed
time, while the other fields are unchanged. -/
theorem c6_markRunning_overwrites (now : Int) (s : WalletState)
    (h : s.isRunning = true) :
    (markWalletAsRunning now s).isRunning = true ∧
    (markWalletAsRunning now s).status = .running ∧
    (markWalletAsRunning now s).lastRunTime = now ∧
    (markWalletAsRunning now s).nextRunTime = s.nextRunTime ∧
    (markWalletAsRunning now s).transactionsCompleted = s.transactionsCompleted ∧
    (markWalletAsRunning now s).errors = s.errors ∧
    (markWalletAsRunning now s).lastError = s.lastError := by
  simp [markWalletAsRunning]

/-- C6 witness: the amended statement at `now = 5` on `runningWallet`. -/
theorem c6_markRunning_witness :
    (markWalletAsRunning 5 runningWallet).isRunning = true ∧
    (markWalletAsRunning 5 runningWallet).status = .running ∧
    (markWalletAsRunning 5 runningWallet).lastRunTime = 5 ∧
    (markWalletAsRunning 5 runningWallet).nextRunTime = runningWallet.nextRunTime ∧
    (markWalletAsRunning 5 runningWallet).transactionsCompleted
      = runningWallet.transactionsCompleted ∧
    (markWalletAsRunning 5 runningWallet).errors = runningWallet.errors ∧
    (markWalletAsRunning 5 runningWallet).lastError = runningWallet.lastError :=
  c6_markRunning_overwrites 5 runningWallet (by decide)

/-- C7: on the sequence `[SWAP_PRIOR_TO_USDC, SWAP_USDC_TO_PRIOR,
SWAP_PRIOR_TO_USDC]` (a shape the generator actually produces), the
`txSequence.indexOf(txType) > 0` test skips the delay before the step at
position 2, because that step's *value* first occurs at position 0: the flags
are `[false, true, false]` — one delay in total — where the claim requires a
delay before every step at position ≥ 1 (`[false, true, true]`, two
delays). -/
theorem c7_indexOf_skips_delay :
    interTxDelayFlags
        [.SWAP_PRIOR_TO_USDC, .SWAP_USDC_TO_PRIOR, .SWAP_PRIOR_TO_USDC]
      = [false, true, false] ∧
    interTxDelayCount
        [.SWAP_PRIOR_TO_USDC, .SWAP_USDC_TO_PRIOR, .SWAP_PRIOR_TO_USDC] = 1 ∧
    ¬ interTxDelayFlags
        [.SWAP_PRIOR_TO_USDC, .SWAP_USDC_TO_PRIOR, .SWAP_PRIOR_TO_USDC]
      = [false, true, true] := by
  decide

/-- C8 counterexample: registering the same address a second time does not
leave the stored state unchanged — `initializeWalletState` unconditionally
overwrites, so a second call at a later `Date.now()` resets `nextRunTime`. -/
theorem c8_counterexample :
    initializeWalletState (initializeWalletState (fun _ => none) "a" 0) "a" 1 "a"
      ≠ initializeWalletState (fun _ => none) "a" 0 "a" ∧
    (initializeWalletState (initializeWalletState (fun _ => none) "a" 0) "a" 1 "a").map
        (fun s => s.nextRunTime) = some 1 ∧
    (initializeWalletState (fun _ => none) "a" 0 "a").map
        (fun s => s.nextRunTime) = some 0 := by
  refine ⟨?_, ?_, ?_⟩ <;> decide

/-- C8 (amended): `initializeWalletState` unconditionally overwrites the
stored record with a fresh initial state, so registering twice is idempotent
only when both calls observe the same `Date.now()` (and nothing intervenes):
at a fixed timestamp the second call leaves the registry exactly as the
first left it. -/
theorem c8_register_idempotent_at_fixed_time (reg : String → Option WalletState)
    (a : String) (now : Int) :
    initializeWalletState (initializeWalletState reg a now) a now
      = initializeWalletState reg a now := by
  unfold initializeWalletState
  funext x
  by_cases hx : x = a
  · subst hx; simp
  · simp [Function.update_noteq hx]

/-- C1: at every point of a scheduler tick — the batch selection followed by
any interleaving of the batch's launches with concurrent task completions
(every intermediate state is `applyTickEvents` of a prefix of the event
list) — the number of wallets with `isRunning = true` never exceeds
`wallets.maxConcurrent`; the tick launches at most
`maxConcurrent - runningCount` wallets, and nothing at all when that
difference is zero or negative. -/
theorem c1_running_never_exceeds_ceiling (cfg : Config) (reg : List WalletState)
    (now : Int) (events : List TickEvent)
    (h : getRunningWalletsCount reg ≤ cfg.maxConcurrent) :
    getRunningWalletsCount (applyTickEvents cfg events (tickBatch cfg reg now) reg)
        ≤ cfg.maxConcurrent ∧
    (tickBatch cfg reg now).length ≤ cfg.maxConcurrent - getRunningWalletsCount reg ∧
    (cfg.maxConcurrent ≤ getRunningWalletsCount reg → tickBatch cfg reg now = []) := by
  have hlen : (tickBatch cfg reg now).length
      ≤ cfg.maxConcurrent - getRunningWalletsCount reg := by
    unfold tickBatch
    split
    · simp
    · simpa using List.length_take_le _ _
  refine ⟨?_, hlen, ?_⟩
  · have ha := applyTickEvents_running_le cfg events (tickBatch cfg reg now) reg
    omega
  · intro hge
    unfold tickBatch
    rw [if_pos hge]

/-- A two-wallet registry, both ready at time 0. -/
def twoFreshWallets : List WalletState := [initWalletState 0, initWalletState 0]

/-- C1 witness: the ceiling statement at the shipped configuration on a
two-wallet registry, with a tick that launches both wallets and sees one of
them finish in between. -/
theorem c1_running_ceiling_witness :
    getRunningWalletsCount
        (applyTickEvents defaultConfig
          [TickEvent.launch 1, TickEvent.finish 0 2 0 true none, TickEvent.launch 3]
          (tickBatch defaultConfig twoFreshWallets 0) twoFreshWallets)
        ≤ defaultConfig.maxConcurrent ∧
    (tickBatch defaultConfig twoFreshWallets 0).length
      ≤ defaultConfig.maxConcurrent - getRunningWalletsCount twoFreshWallets ∧
    (defaultConfig.maxConcurrent ≤ getRunningWalletsCount twoFreshWallets →
      tickBatch defaultConfig twoFreshWallets 0 = []) :=
  c1_running_never_exceeds_ceiling defaultConfig twoFreshWallets 0
    [TickEvent.launch 1, TickEvent.finish 0 2 0 true none, TickEvent.launch 3]
    (by decide)

theorem fillSequence_length (picks : Nat → Nat) :
    ∀ (r step : Nat) (lastType : Option TransactionType),
      (fillSequence picks step r lastType).length = r := by
  intro r
  induction r with
  | zero => intro step lastType; simp [fillSequence]
  | succ n ih => intro step lastType; simp [fillSequence, ih]

theorem fillSequence_head_ne (picks : Nat → Nat) (step r : Nat)
    (x y : TransactionType)
    (h : (fillSequence picks step r (some x)).head? = some y) : y ≠ x := by
  cases r with
  | zero => simp [fillSequence] at h
  | succ n =>
    cases x <;>
      simp [fillSequence, List.getD, Nat.mod_one] at h <;>
      rcases Nat.mod_two_eq_zero_or_one (picks step) with hm | hm <;>
      simp [hm, List.getD] at h ⊢ <;>
      simp [← h]

theorem fillSequence_chain (picks : Nat → Nat) :
    ∀ (r step : Nat) (lastType : Option TransactionType),
      List.Chain' (fun a b => a ≠ b) (fillSequence picks step r lastType) := by
  intro r
  induction r with
  | zero => intro step lastType; simp [fillSequence]
  | succ n ih =>
    intro step lastType
    rw [fillSequence]
    refine List.chain'_cons'.mpr ⟨?_, ih (step + 1) _⟩
    intro y hy
    exact (fillSequence_head_ne picks (step + 1) n _ y hy).symm

theorem fillSequence_mem (picks : Nat → Nat) :
    ∀ (r step : Nat) (lastType : Option TransactionType) (t : TransactionType),
      t ∈ fillSequence picks step r lastType →
        t = .SWAP_PRIOR_TO_USDC ∨ t = .SWAP_USDC_TO_PRIOR := by
  intro r
  induction r with
  | zero => intro step lastType t ht; simp [fillSequence] at ht
  | succ n ih =>
    intro step lastType t ht
    rw [fillSequence] at ht
    rcases List.mem_cons.mp ht with h | h
    · subst h
      rcases lastType with _ | x
      · rcases Nat.mod_two_eq_zero_or_one (picks step) with hm | hm <;>
          simp [List.getD, hm]
      · cases x <;>
          first
          | (rcases Nat.mod_two_eq_zero_or_one (picks step) with hm | hm <;>
              simp [List.getD, hm, Nat.mod_one])
          | simp [List.getD, Nat.mod_one]
    · exact ih (step + 1) _ t h

theorem generateTransactionSequence_of_start (cfg : Config) (count : Nat)
    (picks : Nat → Nat) (h : cfg.alwaysStartWithPriorToUsdc = true) :
    generateTransactionSequence cfg count picks
      = .SWAP_PRIOR_TO_USDC ::
          fillSequence picks 1 (count - 1) (some .SWAP_PRIOR_TO_USDC) := by
  unfold generateTransactionSequence
  rw [h]
  rfl

theorem generateTransactionSequence_of_free (cfg : Config) (count : Nat)
    (picks : Nat → Nat) (h : cfg.alwaysStartWithPriorToUsdc = false) :
    generateTransactionSequence cfg count picks = fillSequence picks 0 count none := by
  unfold generateTransactionSequence
  rw [h]
  rfl

/-- C10: for every drawn transaction count `count` at least
`transactions.minTransactionsPerWallet ≥ 1`, `generateTransactionSequence`
returns a non-empty sequence of swap step kinds with no two consecutive
elements equal, starting with `SWAP_PRIOR_TO_USDC` whenever
`transactions.patterns.alwaysStartWithPriorToUsdc` is set. -/
theorem c10_generated_sequence_shape (cfg : Config) (count : Nat)
    (picks : Nat → Nat) (hmin : 1 ≤ cfg.minTransactionsPerWallet)
    (hcount : cfg.minTransactionsPerWallet ≤ count) :
    generateTransactionSequence cfg count picks ≠ [] ∧
    List.Chain' (fun a b => a ≠ b) (generateTransactionSequence cfg count picks) ∧
    (∀ t ∈ generateTransactionSequence cfg count picks,
      t = .SWAP_PRIOR_TO_USDC ∨ t = .SWAP_USDC_TO_PRIOR) ∧
    (cfg.alwaysStartWithPriorToUsdc = true →
      (generateTransactionSequence cfg count picks).head? = some .SWAP_PRIOR_TO_USDC) := by
  cases hstart : cfg.alwaysStartWithPriorToUsdc with
  | true =>
    rw [generateTransactionSequence_of_start cfg count picks hstart]
    refine ⟨by simp, ?_, ?_, fun _ => by simp⟩
    · refine List.chain'_cons'.mpr ⟨?_, fillSequence_chain picks _ _ _⟩
      intro y hy
      exact (fillSequence_head_ne picks _ _ _ y hy).symm
    · intro t ht
      rcases List.mem_cons.mp ht with h | h
      · exact Or.inl h
      · exact fillSequence_mem picks _ _ _ t h
  | false =>
    rw [generateTransactionSequence_of_free cfg count picks hstart]
    have hne : fillSequence picks 0 count none ≠ [] := by
      intro hcontra
      have := fillSequence_length picks count 0 none
      rw [hcontra] at this
      simp at this
      omega
    exact ⟨hne, fillSequence_chain picks _ _ _,
      fun t ht => fillSequence_mem picks _ _ _ t ht,
      fun hc => by cases hc⟩

/-- C10 witness: the statement at the shipped configuration with count 5 and
an arbitrary concrete pick oracle. -/
theorem c10_generated_sequence_witness :
    generateTransactionSequence defaultConfig 5 (fun i => i) ≠ [] ∧
    List.Chain' (fun a b => a ≠ b)
      (generateTransactionSequence defaultConfig 5 (fun i => i)) ∧
    (∀ t ∈ generateTransactionSequence defaultConfig 5 (fun i => i),
      t = .SWAP_PRIOR_TO_USDC ∨ t = .SWAP_USDC_TO_PRIOR) ∧
    (defaultConfig.alwaysStartWithPriorToUsdc = true →
      (generateTransactionSequence defaultConfig 5 (fun i => i)).head?
        = some .SWAP_PRIOR_TO_USDC) :=
  c10_generated_sequence_shape defaultConfig 5 (fun i => i) (by decide) (by decide)

theorem toFixed6_of_int_mul {q : Rat} {k : Int} (hk : q * 1000000 = (k : Rat)) :
    toFixed6 q = q := by
  unfold toFixed6
  rw [hk]
  have hfl : ⌊(k : Rat) + 1 / 2⌋ = k := by
    rw [Int.floor_int_add]
    norm_num
  rw [hfl]
  rw [div_eq_iff (by norm_num : (1000000 : Rat) ≠ 0)]
  rw [← hk]

/-- C3: `retryWithHigherGas` is a frame on the stored fee profile — for any
retried action that does not itself permanently change the retry budget
(which is true of every action in the engine: they only read the profile, and
nested escalations restore it), the stored `maxFeePerGas`,
`maxPriorityFeePerGas` and `maxRetries` after the call equal their values
before it, whether the action returned or threw (both outcomes are the two
`Except` cases of `f`). During the retried attempt the action runs against
the escalated profile: the retry budget is one less, and each fee component
is the prior value times the retry multiplier (exactly so whenever that
product is a whole number of micro-gwei, as `toFixed(6)` then changes
nothing). -/
theorem c3_retry_gas_frame {α : Type} (f : GasSettings → Except String α × GasSettings)
    (s : GasSettings) (hf : ∀ t, (f t).2.maxRetries = t.maxRetries) :
    (retryWithHigherGas f s).2.maxFeePerGas = s.maxFeePerGas ∧
    (retryWithHigherGas f s).2.maxPriorityFeePerGas = s.maxPriorityFeePerGas ∧
    (retryWithHigherGas f s).2.maxRetries = s.maxRetries ∧
    (s.maxRetries ≠ 0 →
      (retryWithHigherGas f s).1 = (f (escalateGasSettings s)).1 ∧
      (escalateGasSettings s).maxRetries = s.maxRetries - 1) ∧
    (∀ k : Int, s.maxFeePerGas * retryGasMultiplier s * 1000000 = (k : Rat) →
      (escalateGasSettings s).maxFeePerGas = s.maxFeePerGas * retryGasMultiplier s) ∧
    (∀ k : Int, s.maxPriorityFeePerGas * retryGasMultiplier s * 1000000 = (k : Rat) →
      (escalateGasSettings s).maxPriorityFeePerGas
        = s.maxPriorityFeePerGas * retryGasMultiplier s) := by
  refine ⟨?_, ?_, ?_, ?_, ?_, ?_⟩
  · unfold retryWithHigherGas
    split <;> rfl
  · unfold retryWithHigherGas
    split <;> rfl
  · unfold retryWithHigherGas
    split
    · rfl
    · rename_i hz
      have h1 := hf (escalateGasSettings s)
      have h2 : (escalateGasSettings s).maxRetries = s.maxRetries - 1 := rfl
      simp only []
      omega
  · intro hz
    unfold retryWithHigherGas
    rw [if_neg hz]
    exact ⟨rfl, rfl⟩
  · intro k hk
    unfold escalateGasSettings
    exact toFixed6_of_int_mul hk
  · intro k hk
    unfold escalateGasSettings
    exact toFixed6_of_int_mul hk

/-- C3 witness: the frame statement on the shipped gas profile with an action
that returns successfully without touching the profile. -/
theorem c3_retry_gas_frame_witness :
    (retryWithHigherGas (fun t => (Except.ok 0, t)) defaultGasSettings).2.maxFeePerGas
      = defaultGasSettings.maxFeePerGas ∧
    (retryWithHigherGas (fun t => (Except.ok 0, t))
        defaultGasSettings).2.maxPriorityFeePerGas
      = defaultGasSettings.maxPriorityFeePerGas ∧
    (retryWithHigherGas (fun t => (Except.ok 0, t)) defaultGasSettings).2.maxRetries
      = defaultGasSettings.maxRetries ∧
    (defaultGasSettings.maxRetries ≠ 0 →
      (retryWithHigherGas (fun t => ((Except.ok 0 : Except String Nat), t))
          defaultGasSettings).1
        = ((fun (t : GasSettings) => ((Except.ok 0 : Except String Nat), t))
            (escalateGasSettings defaultGasSettings)).1 ∧
      (escalateGasSettings defaultGasSettings).maxRetries
        = defaultGasSettings.maxRetries - 1) ∧
    (∀ k : Int,
      defaultGasSettings.maxFeePerGas * retryGasMultiplier defaultGasSettings * 1000000
          = (k : Rat) →
        (escalateGasSettings defaultGasSettings).maxFeePerGas
          = defaultGasSettings.maxFeePerGas * retryGasMultiplier defaultGasSettings) ∧
    (∀ k : Int,
      defaultGasSettings.maxPriorityFeePerGas * retryGasMultiplier defaultGasSettings
            * 1000000
          = (k : Rat) →
        (escalateGasSettings defaultGasSettings).maxPriorityFeePerGas
          = defaultGasSettings.maxPriorityFeePerGas
              * retryGasMultiplier defaultGasSettings) :=
  c3_retry_gas_frame (fun t => (Except.ok 0, t)) defaultGasSettings (fun _ => rfl)

theorem withProviderScan_const_error {α : Type} (msg : String)
    (action : Nat → Except String α) (hact : ∀ i, action i = .error msg)
    (hmt : isTransportError msg = false) :
    ∀ (n inv sleeps failovers : Nat) (lastError : Option String) (st : RpcState),
      withProviderScan action (n + 1) inv sleeps failovers lastError st
        = ⟨.error msg, st, inv + (n + 1), sleeps + n, failovers⟩ := by
  intro n
  induction n with
  | zero =>
    intro inv sleeps failovers lastError st
    simp [withProviderScan, hact, hmt]
  | succ m ih =>
    intro inv sleeps failovers lastError st
    rw [withProviderScan]
    rw [hact inv]
    simp only [hmt, Bool.false_eq_true, if_false, Nat.succ_sub_one]
    rw [if_pos (Nat.succ_pos m)]
    rw [ih (inv + 1) (sleeps + 1) failovers (some msg) st]
    have h1 : inv + 1 + (m + 1) = inv + (m + 1 + 1) := by omega
    have h2 : sleeps + 1 + m = sleeps + (m + 1) := by omega
    rw [h1, h2]

/-- A single-endpoint pool with no recorded failures. -/
def healthyPool : RpcState :=
  { providers := [mkProvider "https://sepolia.base.org" 0]
    currentProviderIndex := 0 }

/-- C4 counterexample: an action that always throws `"execution reverted"` —
which matches none of the four transport patterns — is *not* propagated
immediately by `withProvider` with `maxRetries = 2`: the wrapper invokes the
action 3 times and sleeps the retry delay twice. Only the failover part of
the claim holds (the pool is never touched). -/
theorem c4_counterexample :
    (withProvider (fun _ => (Except.error "execution reverted" : Except String Nat)) 2
        healthyPool).invocations = 3 ∧
    ¬ (withProvider (fun _ => (Except.error "execution reverted" : Except String Nat)) 2
        healthyPool).invocations = 1 ∧
    (withProvider (fun _ => (Except.error "execution reverted" : Except String Nat)) 2
        healthyPool).sleeps = 2 ∧
    ¬ (withProvider (fun _ => (Except.error "execution reverted" : Except String Nat)) 2
        healthyPool).sleeps = 0 ∧
    (withProvider (fun _ => (Except.error "execution reverted" : Except String Nat)) 2
        healthyPool).failovers = 0 ∧
    (withProvider (fun _ => (Except.error "execution reverted" : Except String Nat)) 2
        healthyPool).finalState = healthyPool ∧
    (withProvider (fun _ => (Except.error "execution reverted" : Except String Nat)) 2
        healthyPool).result = .error "execution reverted" := by
  exact ⟨by decide, by decide, by decide, by decide, by decide, by decide, rfl⟩

/-- C4 (amended): for an action that keeps failing with a non-transport
error (its message contains none of `timeout`, `server error`,
`network error`, `connection refused`), `withProvider` performs no failover —
`markCurrentProviderAsFailed` is never called and the pool state is left
untouched — but the error is *not* propagated immediately: the wrapper
retries it like any other error, invoking the action `maxRetries + 1` times
with `maxRetries` retry-delay sleeps, and only then surfaces the last
error. -/
theorem c4_nontransport_retried_without_failover {α : Type} (msg : String)
    (action : Nat → Except String α) (maxRetries : Nat) (st : RpcState)
    (hact : ∀ i, action i = .error msg) (hmt : isTransportError msg = false) :
    withProvider action maxRetries st
      = ⟨.error msg, st, maxRetries + 1, maxRetries, 0⟩ := by
  unfold withProvider
  have h := withProviderScan_const_error msg action hact hmt maxRetries 0 0 0 none st
  rw [h]
  have h1 : 0 + (maxRetries + 1) = maxRetries + 1 := by omega
  have h2 : 0 + maxRetries = maxRetries := by omega
  rw [h1, h2]

/-- C4 witness: the amended statement on the healthy single-endpoint pool
with the always-reverting action and `maxRetries = 2`. -/
theorem c4_nontransport_witness :
    withProvider (fun _ => (Except.error "execution reverted" : Except String Nat)) 2
        healthyPool
      = ⟨.error "execution reverted", healthyPool, 3, 2, 0⟩ :=
  c4_nontransport_retried_without_failover "execution reverted"
    (fun _ => .error "execution reverted") 2 healthyPool (fun _ => rfl) (by decide)

/-- The configuration of the C2 counterexample: finite-run mode
(`runForever = false`) with `wallets.maxTransactions = 1`; every other field
as shipped. -/
def cfgFinite : Config := { defaultConfig with runForever := false, maxTransactions := some 1 }

/-- C2 counterexample: in finite-run mode, a successful completion that
reaches `wallets.maxTransactions` does *not* leave `nextRunTime` in
`[now + betweenRounds.min, now + betweenRounds.max]`: the retirement branch
overwrites it with `Number.MAX_SAFE_INTEGER`, far above the window. -/
theorem c2_counterexample :
    (markWalletAsCompleted cfgFinite 0 0 true none (initWalletState 0)).nextRunTime
      = maxSafeInteger ∧
    ¬ (markWalletAsCompleted cfgFinite 0 0 true none (initWalletState 0)).nextRunTime
      ≤ 0 + defaultConfig.betweenRoundsMax ∧
    0 + defaultConfig.betweenRoundsMax < maxSafeInteger := by
  refine ⟨by decide, by decide, by decide⟩

/-- C2 (amended): as long as the finite-run retirement branch does not fire,
`markWalletAsCompleted` on success sets `nextRunTime` to `now` plus the
uniform draw from the configured `[betweenRounds.min, betweenRounds.max]`
window, and on failure to `now` plus the draw from the *hard-coded* short
backoff window `[60000 ms, 120000 ms]`; the backoff maximum 120000 is
strictly below the shipped configuration's `betweenRounds.min` of
3600000. -/
theorem c2_cooldown_windows (cfg : Config) (now : Int) (q : Rat)
    (err : Option String) (s : WalletState)
    (hq0 : 0 ≤ q) (hq1 : q < 1)
    (hrr : cfg.betweenRoundsMin ≤ cfg.betweenRoundsMax)
    (hretS : retireTriggered cfg (s.transactionsCompleted + 1) = false)
    (hretF : retireTriggered cfg s.transactionsCompleted = false) :
    ((markWalletAsCompleted cfg now q true err s).nextRunTime
        = now + getRandomInRange cfg.betweenRoundsMin cfg.betweenRoundsMax q ∧
      now + cfg.betweenRoundsMin
        ≤ (markWalletAsCompleted cfg now q true err s).nextRunTime ∧
      (markWalletAsCompleted cfg now q true err s).nextRunTime
        ≤ now + cfg.betweenRoundsMax) ∧
    ((markWalletAsCompleted cfg now q false err s).nextRunTime
        = now + getRandomInRange 60000 120000 q ∧
      now + 60000 ≤ (markWalletAsCompleted cfg now q false err s).nextRunTime ∧
      (markWalletAsCompleted cfg now q false err s).nextRunTime ≤ now + 120000) ∧
    (120000 : Int) < defaultConfig.betweenRoundsMin := by
  have hS : (markWalletAsCompleted cfg now q true err s).nextRunTime
      = now + getRandomInRange cfg.betweenRoundsMin cfg.betweenRoundsMax q := by
    unfold markWalletAsCompleted
    simp [hretS]
  have hF : (markWalletAsCompleted cfg now q false err s).nextRunTime
      = now + getRandomInRange 60000 120000 q := by
    unfold markWalletAsCompleted
    simp [hretF]
  have hbf : (60000 : Int) ≤ 120000 := by norm_num
  have hS1 := getRandomInRange_ge_min hq0 hq1 hrr
  have hS2 := getRandomInRange_le_max hq0 hq1 hrr
  have hF1 := getRandomInRange_ge_min hq0 hq1 hbf
  have hF2 := getRandomInRange_le_max hq0 hq1 hbf
  refine ⟨⟨hS, ?_, ?_⟩, ⟨hF, ?_, ?_⟩, by decide⟩
  · rw [hS]; omega
  · rw [hS]; omega
  · rw [hF]; omega
  · rw [hF]; omega

/-- C2 witness: the cooldown statement at the shipped configuration
(`runForever = true`, so retirement never fires) for a freshly registered
wallet at `now = 0` with the draw `q = 1/2`. -/
theorem c2_cooldown_witness :
    ((markWalletAsCompleted defaultConfig 0 (1 / 2) true none
          (initWalletState 0)).nextRunTime
        = 0 + getRandomInRange defaultConfig.betweenRoundsMin
            defaultConfig.betweenRoundsMax (1 / 2) ∧
      0 + defaultConfig.betweenRoundsMin
        ≤ (markWalletAsCompleted defaultConfig 0 (1 / 2) true none
            (initWalletState 0)).nextRunTime ∧
      (markWalletAsCompleted defaultConfig 0 (1 / 2) true none
          (initWalletState 0)).nextRunTime
        ≤ 0 + defaultConfig.betweenRoundsMax) ∧
    ((markWalletAsCompleted defaultConfig 0 (1 / 2) false none
          (initWalletState 0)).nextRunTime
        = 0 + getRandomInRange 60000 120000 (1 / 2) ∧
      0 + 60000 ≤ (markWalletAsCompleted defaultConfig 0 (1 / 2) false none
          (initWalletState 0)).nextRunTime ∧
      (markWalletAsCompleted defaultConfig 0 (1 / 2) false none
          (initWalletState 0)).nextRunTime ≤ 0 + 120000) ∧
    (120000 : Int) < defaultConfig.betweenRoundsMin :=
  c2_cooldown_windows defaultConfig 0 (1 / 2) none (initWalletState 0)
    (by norm_num) (by norm_num) (by decide) (by decide) (by decide)

theorem get?_map_zip_range' {α β : Type} (g : α → Nat → β) :
    ∀ (l : List α) (k i : Nat),
      ((l.zip (List.range' k l.length)).map (fun pi => g pi.1 pi.2)).get? i
        = (l.get? i).map (fun a => g a (k + i)) := by
  intro l
  induction l with
  | nil => intro k i; simp
  | cons a t ih =>
    intro k i
    rw [List.length_cons, List.range'_succ]
    cases i with
    | zero => simp
    | succ j =>
      simp only [List.zip_cons_cons, List.map_cons, List.get?_cons_succ]
      rw [ih (k + 1) j]
      have harg : k + 1 + j = k + (j + 1) := by omega
      rw [harg]

theorem findIdx_get?_of_any {α : Type} (p : α → Bool) :
    ∀ l : List α, l.any p = true →
      ∃ x, l.get? (l.findIdx p) = some x ∧ p x = true := by
  intro l
  induction l with
  | nil => intro h; simp at h
  | cons a t ih =>
    intro h
    by_cases hpa : p a = true
    · exact ⟨a, by simp [List.findIdx_cons, hpa], hpa⟩
    · have hpa' : p a = false := by
        cases hval : p a
        · rfl
        · exact absurd hval hpa
      have ht : t.any p = true := by
        simp [List.any_cons, hpa'] at h
        simpa using h
      obtain ⟨x, hx1, hx2⟩ := ih ht
      refine ⟨x, ?_, hx2⟩
      rw [List.findIdx_cons, hpa']
      show (a :: t).get? (List.findIdx p t + 1) = some x
      rw [List.get?_cons_succ]
      exact hx1

theorem testProvider_failCount_zero_iff (cfg : Config) (net : Except String Int)
    (blk : Except String Nat) (url : String) :
    (testProvider cfg net blk (mkProvider url 0)).failCount = 0
      ↔ probePasses cfg net blk = true := by
  unfold testProvider probePasses mkProvider
  cases net with
  | error m => simp
  | ok chainId =>
    by_cases hc : chainId = cfg.chainId
    · cases blk with
      | error m => simp [hc]
      | ok b => simp [hc]
    · cases blk with
      | error m => simp [hc]
      | ok b => simp [hc]

/-- C9: if no configured endpoint passes the startup health probe (chain-id
identity plus block fetch), `initializeProviders` — and hence the `RpcManager`
constructor — fails with an error instead of completing, so the system does
not start; if at least one endpoint passes, initialization succeeds and the
current pointer designates an endpoint with zero failure count.  (The
constructor's un-awaited `async` probe chain is modelled sequentially; its
thrown rejection aborts startup either way.) -/
theorem c9_startup_health_gate (cfg : Config) (urls : List String)
    (probeNet : Nat → Except String Int) (probeBlock : Nat → Except String Nat)
    (hne : urls ≠ []) :
    ((∀ i, i < urls.length →
        probePasses cfg (probeNet i) (probeBlock i) = false) →
      ∃ msg, initializeProviders cfg urls probeNet probeBlock = .error msg) ∧
    ((∃ i, i < urls.length ∧
        probePasses cfg (probeNet i) (probeBlock i) = true) →
      ∃ st, initializeProviders cfg urls probeNet probeBlock = .ok st ∧
        ∃ p, st.providers.get? st.currentProviderIndex = some p ∧
          p.failCount = 0) := by
  have hurls : urls.isEmpty = false := by
    cases urls with
    | nil => exact absurd rfl hne
    | cons a t => rfl
  set ps0 : List Provider := urls.map (fun url =>
    { url := url, failCount := 0, lastError := none, lastUsed := 0,
      isCurrentlyTesting := false }) with hps0
  have hlen0 : ps0.length = urls.length := by simp [hps0]
  set tested : List Provider :=
    (ps0.zip (List.range ps0.length)).map
      (fun pi => testProvider cfg (probeNet pi.2) (probeBlock pi.2) pi.1) with htested
  have hget : ∀ i, tested.get? i
      = (urls.get? i).map (fun url =>
          testProvider cfg (probeNet i) (probeBlock i) (mkProvider url 0)) := by
    intro i
    rw [htested, List.range_eq_range']
    rw [get?_map_zip_range' (fun p j => testProvider cfg (probeNet j) (probeBlock j) p) ps0 0 i]
    rw [hps0]
    rw [List.get?_map]
    cases urls.get? i with
    | none => rfl
    | some u => simp [mkProvider, Nat.zero_add]
  have hinit : initializeProviders cfg urls probeNet probeBlock
      = (if tested.any (fun p => p.failCount = 0) then
          Except.ok ⟨tested, tested.findIdx (fun p => p.failCount = 0)⟩
        else Except.error "all RPC providers unavailable") := by
    unfold initializeProviders
    rw [hurls]
    show testAllProviders cfg probeNet probeBlock
      { providers := ps0, currentProviderIndex := 0 } = _
    unfold testAllProviders
    rfl
  constructor
  · intro hall
    have hnone : tested.any (fun p => p.failCount = 0) = false := by
      cases hval : tested.any (fun p => p.failCount = 0) with
      | false => rfl
      | true =>
        exfalso
        obtain ⟨x, hxmem, hpx⟩ := List.any_eq_true.mp hval
        obtain ⟨i, hgi⟩ := List.mem_iff_get?.mp hxmem
        have hgeti := hget i
        rw [hgi] at hgeti
        cases hu : urls.get? i with
        | none => rw [hu] at hgeti; simp at hgeti
        | some u =>
          rw [hu] at hgeti
          simp only [Option.map_some'] at hgeti
          obtain ⟨hilt, _⟩ := List.get?_eq_some.mp hu
          have hx0 : x.failCount = 0 := of_decide_eq_true hpx
          have hxeq : x = testProvider cfg (probeNet i) (probeBlock i) (mkProvider u 0) := by
            injection hgeti
          rw [hxeq] at hx0
          have hpass := (testProvider_failCount_zero_iff cfg _ _ u).mp hx0
          rw [hall i hilt] at hpass
          cases hpass
    refine ⟨"all RPC providers unavailable", ?_⟩
    rw [hinit]
    rw [if_neg (fun hc => by rw [hc] at hnone; cases hnone)]
  · intro hex
    obtain ⟨i, hilt, hpass⟩ := hex
    obtain ⟨u, hu⟩ : ∃ u, urls.get? i = some u := by
      cases hu : urls.get? i with
      | none =>
        exfalso
        have hle := List.get?_eq_none.mp hu
        omega
      | some u => exact ⟨u, rfl⟩
    have hti : tested.get? i
        = some (testProvider cfg (probeNet i) (probeBlock i) (mkProvider u 0)) := by
      rw [hget i, hu]
      rfl
    have hfc : (testProvider cfg (probeNet i) (probeBlock i) (mkProvider u 0)).failCount
        = 0 := (testProvider_failCount_zero_iff cfg _ _ u).mpr hpass
    have hmem : testProvider cfg (probeNet i) (probeBlock i) (mkProvider u 0) ∈ tested :=
      List.get?_mem hti
    have hany : tested.any (fun p => p.failCount = 0) = true :=
      List.any_eq_true.mpr ⟨_, hmem, by simp [hfc]⟩
    obtain ⟨p, hp1, hp2⟩ := findIdx_get?_of_any _ tested hany
    refine ⟨⟨tested, tested.findIdx (fun p => p.failCount = 0)⟩,
      ?_, p, hp1, of_decide_eq_true hp2⟩
    rw [hinit, if_pos hany]

/-- C9 witness: the health-gate statement for the shipped single-URL pool
whose endpoint reports the expected chain id 84532 and a block number. -/
theorem c9_startup_health_witness :
    ∃ st, initializeProviders defaultConfig ["https://sepolia.base.org"]
        (fun _ => .ok 84532) (fun _ => .ok 100) = .ok st ∧
      ∃ p, st.providers.get? st.currentProviderIndex = some p ∧ p.failCount = 0 :=
  (c9_startup_health_gate defaultConfig ["https://sepolia.base.org"]
      (fun _ => .ok 84532) (fun _ => .ok 100) (by simp)).2
    ⟨0, by decide, by decide⟩

end PriorBot
